import Mathlib

/- Verification of the serial-stream demultiplexer and command/response
correlator of the E52-xxxNW22S LoRa UART driver (src/E52-xxxNW22S.py).

The Python source is shallowly embedded: the reader loop, the default
response filter, send_message, _send_at_command and _format_command are
translated into executable Lean functions.  The background reader thread
and the calling thread are sequentialised into explicit state passing,
and the module-wide command lock is modelled by an interleaving semantics
over lock actions. -/

/-- Characters treated as strippable whitespace, modelling the whitespace
set of the Python str.strip method on the lines this device emits. -/
def isStripChar (c : Char) : Bool := c.isWhitespace

/-- Python str.strip on the character list of a string: drop leading and
trailing whitespace.  Models the .strip() applied at source line 135. -/
def pyStrip (s : String) : String :=
  String.mk (((s.data.dropWhile isStripChar).reverse.dropWhile isStripChar).reverse)

/-- Character-list test used to build the substring operator: does the
first list occur at the head of the second list. -/
def isPrefixOfChars : List Char → List Char → Bool
  | [], _ => true
  | _ :: _, [] => false
  | a :: as, b :: bs => a == b && isPrefixOfChars as bs

/-- Contiguous-substring test on character lists. -/
def isSubChars : List Char → List Char → Bool
  | needle, [] => isPrefixOfChars needle []
  | needle, b :: bs => isPrefixOfChars needle (b :: bs) || isSubChars needle bs

/-- Python substring operator: strContains hay needle models needle in hay. -/
def strContains (hay needle : String) : Bool := isSubChars needle.data hay.data

/-- Python line.startswith(p). -/
def strStartsWith (s p : String) : Bool := isPrefixOfChars p.data s.data

/-- Embeds _default_response_filter (source lines 147-153):
return ("OK" in line) or ("=" in line) or line.startswith("AT+"). -/
def _default_response_filter (line : String) : Bool :=
  strContains line "OK" || strContains line "=" || strStartsWith line "AT+"

instance : DecidableEq (Except String String) := fun a b =>
  match a, b with
  | Except.ok x, Except.ok y =>
      if h : x = y then isTrue (by rw [h])
      else isFalse (by intro hh; cases hh; exact h rfl)
  | Except.ok _, Except.error _ => isFalse (by intro hh; cases hh)
  | Except.error _, Except.ok _ => isFalse (by intro hh; cases hh)
  | Except.error x, Except.error y =>
      if h : x = y then isTrue (by rw [h])
      else isFalse (by intro hh; cases hh; exact h rfl)

/-- ASCII lower-casing of one character, as Python str.lower acts on the
ASCII command text this device exchanges. -/
def charLower (c : Char) : Char :=
  if 65 ≤ c.toNat ∧ c.toNat ≤ 90 then Char.ofNat (c.toNat + 32) else c

/-- ASCII lower-casing of a string. -/
def strLower (s : String) : String := String.mk (s.data.map charLower)

/-- Case-insensitive substring containment, written from the spec wording
(the Expectation must be a substring of the joined text, case-insensitive)
for comparison with the case-sensitive check the source performs. -/
def containsCI (hay needle : String) : Bool :=
  strContains (strLower hay) (strLower needle)

/-- Shared mutable state touched by the reader thread (source lines
102-110): the response buffer _response_lines, the _waiting_for_cmd flag,
and the sequence of async_callback deliveries made so far. -/
structure ReaderState where
  response_lines : List String
  waiting_for_cmd : Bool
  asyncOut : List String
deriving DecidableEq

/-- One iteration of _reader_loop (source lines 129-144) on one raw line
returned by ser.readline: empty reads are skipped; otherwise the line is
decoded and stripped, then appended to the response buffer when a command
is waiting, else delivered to the async callback. -/
def readerStep (s : ReaderState) (raw : String) : ReaderState :=
  if raw = "" then s
  else
    let line := pyStrip raw
    if s.waiting_for_cmd then
      { s with response_lines := s.response_lines ++ [line] }
    else
      { s with asyncOut := s.asyncOut ++ [line] }

/-- Repeated reader iterations over a list of raw lines, in arrival order. -/
def readerRun (s : ReaderState) (raws : List String) : ReaderState :=
  raws.foldl readerStep s

/-- The segments one raw line contributes: nothing for an empty read,
otherwise exactly the stripped line (the reader never splits a line). -/
def segmentsOfRaw (raw : String) : List String :=
  if raw = "" then [] else [pyStrip raw]

/-- The segments a list of raw lines contributes, in arrival order. -/
def segmentsOfRaws : List String → List String
  | [] => []
  | raw :: rest => segmentsOfRaw raw ++ segmentsOfRaws rest

/-- Whether an Except value is the error outcome (a raised exception). -/
def isErr : Except String String → Bool
  | Except.error _ => true
  | Except.ok _ => false

/-- Outcome of one send_message call: the returned line or the raised
exception, the value of _waiting_for_cmd at exit, and the async_callback
deliveries the call itself performed while it was in progress. -/
structure SendOutcome where
  result : Except String String
  waiting_after : Bool
  asyncDuring : List String
deriving DecidableEq

/-- Embeds send_message (source lines 154-184), sequentialised over the
raw lines the reader observes while _waiting_for_cmd is true.  The poll
loop rescans _response_lines from the start at each wakeup, so the call
returns the first buffered line containing the expected substring; it
sets _waiting_for_cmd to False on both exit paths (lines 181 and 183)
and never invokes async_callback. -/
def send_message_run (windowRaws : List String) (expect : String) : SendOutcome :=
  let buf := segmentsOfRaws windowRaws
  match buf.find? (fun l => strContains l expect) with
  | some l =>
      { result := Except.ok l, waiting_after := false, asyncDuring := [] }
  | none =>
      { result := Except.error "Message sending failed: expected response not received within timeout"
        waiting_after := false
        asyncDuring := [] }

/-- A full send_message session: the exchange over the lines arriving
during the waiting window, followed by the reader processing the lines
that arrive after the call has exited (with _waiting_for_cmd back to
False and the window segments still sitting in the stale buffer). -/
def send_message_session (windowRaws afterRaws : List String) (expect : String) :
    SendOutcome × ReaderState :=
  (send_message_run windowRaws expect,
   readerRun
     { response_lines := segmentsOfRaws windowRaws
       waiting_for_cmd := false
       asyncOut := [] } afterRaws)

/-- Observable events of one _send_at_command call, in program order. -/
inductive Ev where
  | append (s : String)
  | windowClosed
  | asyncDeliver (s : String)
  | result (r : Except String String)
deriving DecidableEq

/-- Outcome of one _send_at_command call. -/
structure AtCmdOutcome where
  response_lines : List String
  valid_lines : List String
  extra_async : List String
  response : String
  result : Except String String
  waiting_after : Bool
  events : List Ev
deriving DecidableEq

/-- Embeds _send_at_command (source lines 224-271), sequentialised over
the raw lines the reader observes during the cmd_timeout window.  The
wait loop only lets the reader append to _response_lines (lines 136-138,
250-252); after the window _waiting_for_cmd is cleared (line 253), the
buffer is partitioned by the response filter preserving order (lines
256-262), the rejected lines are delivered to async_callback in order
(lines 264-266), the accepted lines are joined with a newline (line 268),
and for a non-query with a truthy expected_response absent from the
joined text an exception is raised (lines 269-270).  The expected
response is an Option String, with some "" as falsy as in Python. -/
def send_at_command_run (windowRaws : List String) (is_query : Bool)
    (expected_response : Option String) (filt : String → Bool) : AtCmdOutcome :=
  let buf := segmentsOfRaws windowRaws
  let valid_lines := (buf.partition filt).1
  let extra_async := (buf.partition filt).2
  let response := String.intercalate "\n" valid_lines
  let result : Except String String :=
    match expected_response with
    | none => Except.ok response
    | some e =>
        if !is_query && !(e == "") && !(strContains response e) then
          Except.error ("Unexpected response for command: " ++ response)
        else
          Except.ok response
  { response_lines := buf
    valid_lines := valid_lines
    extra_async := extra_async
    response := response
    result := result
    waiting_after := false
    events := buf.map Ev.append ++
      (Ev.windowClosed :: (extra_async.map Ev.asyncDeliver ++ [Ev.result result])) }

/-- Recognises the event marking the end of the deadline window. -/
def isWindowClosed : Ev → Bool
  | Ev.windowClosed => true
  | _ => false

/-- Projects an async-delivery event to its payload. -/
def evAsync : Ev → Option String
  | Ev.asyncDeliver s => some s
  | _ => none

/-- Async-sink deliveries that happen before the deadline window closes,
that is, while the exchange is still open. -/
def asyncDeliversBeforeClose (evs : List Ev) : List String :=
  (evs.takeWhile (fun e => !(isWindowClosed e))).filterMap evAsync

/-- All async-sink deliveries of an event list, in order. -/
def asyncDeliversAll (evs : List Ev) : List String :=
  evs.filterMap evAsync

/-- Embeds _format_command (source lines 205-222). -/
def _format_command (command : String) (params : List Int)
    (query : Bool) (remote : Bool) : String :=
  let pfx := if remote then "++AT+" else "AT+"
  if query then
    pfx ++ command ++ "=?"
  else if !params.isEmpty then
    pfx ++ command ++ "=" ++ String.intercalate "," (params.map toString)
  else
    pfx ++ command

/-- Wire format written from the spec grammar in its own words:
PREFIX COMMAND followed by =? for a query, or = and the decimal-rendered
parameters joined by commas when parameters are given, or nothing. -/
def formatCommandSpec (command : String) (params : List Int)
    (query : Bool) (remote : Bool) : String :=
  (if remote then "++AT+" else "AT+") ++ command ++
    (if query then "=?"
     else if params = [] then ""
     else "=" ++ String.intercalate "," (params.map toString))

/-- Lock-relevant actions of an exchange-opening call. -/
inductive LAct where
  | acquire
  | send
  | release
deriving DecidableEq

/-- Lock protocol of send_message (lines 168-184): the with-statement on
_cmd_lock acquires, ser.write transmits the payload inside the block, and
the lock is released when the block exits. -/
def send_message_lock_protocol : List LAct := [LAct.acquire, LAct.send, LAct.release]

/-- Lock protocol of _send_at_command (lines 242-271): identical locking
structure around its ser.write. -/
def send_at_command_lock_protocol : List LAct := [LAct.acquire, LAct.send, LAct.release]

/-- Chooses which of the two exchange-opening calls a thread runs. -/
def pickProtocol (b : Bool) : List LAct :=
  if b then send_message_lock_protocol else send_at_command_lock_protocol

/-- Merge two thread programs according to a schedule: at each step the
scheduled thread executes its next action; an exhausted thread yields to
the other. -/
def mergeRun : List Bool → List LAct → List LAct → List (Bool × LAct)
  | [], _, _ => []
  | b :: rest, p0, p1 =>
    if b then
      match p1 with
      | a :: tl => (true, a) :: mergeRun rest p0 tl
      | [] =>
        match p0 with
        | a :: tl => (false, a) :: mergeRun rest tl []
        | [] => []
    else
      match p0 with
      | a :: tl => (false, a) :: mergeRun rest tl p1
      | [] =>
        match p1 with
        | a :: tl => (true, a) :: mergeRun rest p0 tl
        | [] => []

/-- Validity of a trace under the semantics of threading.Lock given the
current holder: an acquire executes only when the lock is free (a blocked
thread is simply not scheduled), a release only by the holder. -/
def lockValidFrom : Option Bool → List (Bool × LAct) → Bool
  | _, [] => true
  | holder, (t, LAct.acquire) :: rest =>
      match holder with
      | none => lockValidFrom (some t) rest
      | some _ => false
  | holder, (t, LAct.release) :: rest =>
      match holder with
      | some h => h == t && lockValidFrom none rest
      | none => false
  | holder, (_, LAct.send) :: rest => lockValidFrom holder rest

/-- Index of the first occurrence of an action in a trace. -/
def posOf : List (Bool × LAct) → (Bool × LAct) → Nat
  | [], _ => 0
  | y :: tl, x => if y = x then 0 else posOf tl x + 1

/-- Mutual exclusion of payload transmissions: whichever thread acquires
first releases the lock before the other thread transmits. -/
def mutexOK (tr : List (Bool × LAct)) : Bool :=
  (decide (posOf tr (false, LAct.acquire) < posOf tr (true, LAct.acquire) →
      posOf tr (false, LAct.release) < posOf tr (true, LAct.send))) &&
  (decide (posOf tr (true, LAct.acquire) < posOf tr (false, LAct.acquire) →
      posOf tr (true, LAct.release) < posOf tr (false, LAct.send)))

/-- Schedules of length six, enough to interleave two three-action calls. -/
def schedOf (f : Fin 6 → Bool) : List Bool := (List.finRange 6).map f

lemma segmentsOfRaws_append (a b : List String) :
    segmentsOfRaws (a ++ b) = segmentsOfRaws a ++ segmentsOfRaws b := by
  induction a with
  | nil => rfl
  | cons x xs ih => simp [segmentsOfRaws, ih]

lemma readerStep_waiting (s : ReaderState) (raw : String) :
    (readerStep s raw).waiting_for_cmd = s.waiting_for_cmd := by
  unfold readerStep
  by_cases h : raw = "" <;> by_cases hw : s.waiting_for_cmd <;> simp [h, hw]

lemma readerStep_async_of_not_waiting (s : ReaderState) (raw : String)
    (h : s.waiting_for_cmd = false) :
    (readerStep s raw).asyncOut = s.asyncOut ++ segmentsOfRaw raw := by
  unfold readerStep segmentsOfRaw
  by_cases he : raw = "" <;> simp [he, h]

lemma readerRun_async (raws : List String) :
    ∀ s : ReaderState, s.waiting_for_cmd = false →
      (readerRun s raws).asyncOut = s.asyncOut ++ segmentsOfRaws raws := by
  induction raws with
  | nil => intro s _; simp [readerRun, segmentsOfRaws]
  | cons raw rest ih =>
      intro s h
      show (readerRun (readerStep s raw) rest).asyncOut = _
      rw [ih (readerStep s raw) (by rw [readerStep_waiting]; exact h),
        readerStep_async_of_not_waiting s raw h]
      simp [segmentsOfRaws]

lemma readerStep_buffer_of_waiting (s : ReaderState) (raw : String)
    (h : s.waiting_for_cmd = true) :
    (readerStep s raw).response_lines = s.response_lines ++ segmentsOfRaw raw := by
  unfold readerStep segmentsOfRaw
  by_cases he : raw = "" <;> simp [he, h]

lemma readerRun_buffer (raws : List String) :
    ∀ s : ReaderState, s.waiting_for_cmd = true →
      (readerRun s raws).response_lines = s.response_lines ++ segmentsOfRaws raws := by
  induction raws with
  | nil => intro s _; simp [readerRun, segmentsOfRaws]
  | cons raw rest ih =>
      intro s h
      show (readerRun (readerStep s raw) rest).response_lines = _
      rw [ih (readerStep s raw) (by rw [readerStep_waiting]; exact h),
        readerStep_buffer_of_waiting s raw h]
      simp [segmentsOfRaws]

lemma find?_decomp {α : Type} (p : α → Bool) :
    ∀ (l : List α) (r : α), l.find? p = some r →
      p r = true ∧ ∃ pre post, l = pre ++ r :: post ∧ ∀ x ∈ pre, p x = false := by
  intro l
  induction l with
  | nil => intro r h; simp [List.find?] at h
  | cons a tl ih =>
      intro r h
      by_cases hpa : p a
      · rw [List.find?_cons_of_pos _ hpa] at h
        cases h
        exact ⟨hpa, [], tl, rfl, by intro x hx; simp at hx⟩
      · rw [List.find?_cons_of_neg _ hpa] at h
        obtain ⟨hr, pre, post, hl, hpre⟩ := ih r h
        refine ⟨hr, a :: pre, post, by rw [hl]; rfl, ?_⟩
        intro x hx
        rcases List.mem_cons.mp hx with hx | hx
        · rw [hx]; exact Bool.of_not_eq_true hpa
        · exact hpre x hx

lemma find?_append_left {α : Type} (p : α → Bool) (l l2 : List α) (r : α)
    (h : l.find? p = some r) : (l ++ l2).find? p = some r := by
  rw [List.find?_append, h]
  rfl

lemma asyncBefore_shape (buf : List String) (rest : List Ev) :
    asyncDeliversBeforeClose (buf.map Ev.append ++ (Ev.windowClosed :: rest)) = [] := by
  induction buf with
  | nil => simp [asyncDeliversBeforeClose, List.takeWhile, isWindowClosed]
  | cons x xs ih =>
      simp [asyncDeliversBeforeClose, List.takeWhile, isWindowClosed, evAsync, ih]

lemma filterMap_evAsync_append (buf : List String) :
    (buf.map Ev.append).filterMap evAsync = [] := by
  induction buf with
  | nil => rfl
  | cons x xs ih => simp [evAsync, ih]

lemma filterMap_evAsync_deliver (extra : List String) :
    (extra.map Ev.asyncDeliver).filterMap evAsync = extra := by
  induction extra with
  | nil => rfl
  | cons x xs ih => simpa [evAsync] using ih

lemma asyncAll_shape (buf extra : List String) (r : Except String String) :
    asyncDeliversAll
      (buf.map Ev.append ++ (Ev.windowClosed :: (extra.map Ev.asyncDeliver ++ [Ev.result r])))
      = extra := by
  unfold asyncDeliversAll
  rw [List.filterMap_append, filterMap_evAsync_append]
  simpa [evAsync, List.filterMap_append] using filterMap_evAsync_deliver extra

lemma data_ne_nil_of_ne_empty (e : String) (h : e ≠ "") : e.data ≠ [] := by
  intro hd
  apply h
  cases e with
  | mk l =>
      simp only [String.data] at hd
      rw [hd]

lemma strContains_empty_left (e : String) (h : e ≠ "") : strContains "" e = false := by
  have hd := data_ne_nil_of_ne_empty e h
  show isSubChars e.data ("" : String).data = false
  have hnil : ("" : String).data = [] := by decide
  rw [hnil]
  cases hcase : e.data with
  | nil => exact absurd hcase hd
  | cons c cs => rfl

/-- Sanity computations tying the embedding to the concrete behaviours
the source documents: formatting of set, query and remote commands. -/
lemma format_command_samples :
    _format_command "OPTION" [3, 1] false false = "AT+OPTION=3,1"
    ∧ _format_command "INFO" [] true false = "AT+INFO=?"
    ∧ _format_command "CHANNEL" [] true true = "++AT+CHANNEL=?" := by
  refine ⟨by decide, by decide, by decide⟩

lemma send_message_run_waiting (w : List String) (e : String) :
    (send_message_run w e).waiting_after = false := by
  unfold send_message_run
  cases hf : (segmentsOfRaws w).find? (fun l => strContains l e) <;> simp [hf]

lemma send_message_run_asyncDuring (w : List String) (e : String) :
    (send_message_run w e).asyncDuring = [] := by
  unfold send_message_run
  cases hf : (segmentsOfRaws w).find? (fun l => strContains l e) <;> simp [hf]

lemma atCmd_extra_async (raws : List String) (isq : Bool) (exp : Option String)
    (f : String → Bool) :
    (send_at_command_run raws isq exp f).extra_async
      = (segmentsOfRaws raws).filter (fun l => !(f l)) := by
  show ((segmentsOfRaws raws).partition f).2 = _
  rw [List.partition_eq_filter_filter]
  rfl

lemma atCmd_valid_lines (raws : List String) (isq : Bool) (exp : Option String)
    (f : String → Bool) :
    (send_at_command_run raws isq exp f).valid_lines
      = (segmentsOfRaws raws).filter f := by
  show ((segmentsOfRaws raws).partition f).1 = _
  rw [List.partition_eq_filter_filter]

/-- C1: refutes the splitting behaviour the claim asserts: processing the
merged physical line "Hello Module A!AT+OPTION=OK" while a command is
waiting buffers the single unsplit Segment, not the two Segments the
claim predicts. -/
theorem c1_counterexample :
    (readerRun { response_lines := [], waiting_for_cmd := true, asyncOut := [] }
        ["Hello Module A!AT+OPTION=OK"]).response_lines
      = ["Hello Module A!AT+OPTION=OK"]
    ∧ (readerRun { response_lines := [], waiting_for_cmd := true, asyncOut := [] }
        ["Hello Module A!AT+OPTION=OK"]).response_lines
      ≠ ["Hello Module A!", "AT+OPTION=OK"] := ⟨by decide, by decide⟩

/-- C1 (amended): the reader never splits a physical line: every nonempty
raw line read while a command is waiting appends exactly one Segment, the
stripped line itself, to the response buffer, regardless of any marker
occurrences inside the line; in particular a line with no marker yields
exactly one Segment equal to the trimmed input. -/
theorem c1_amended (s : ReaderState) (raw : String)
    (hne : raw ≠ "") (hw : s.waiting_for_cmd = true) :
    (readerStep s raw).response_lines = s.response_lines ++ [pyStrip raw] := by
  rw [readerStep_buffer_of_waiting s raw hw]
  simp [segmentsOfRaw, hne]

theorem c1_amended_witness :
    (readerStep { response_lines := [], waiting_for_cmd := true, asyncOut := [] }
        "Hello Module A!AT+OPTION=OK").response_lines
      = [] ++ [pyStrip "Hello Module A!AT+OPTION=OK"] :=
  c1_amended { response_lines := [], waiting_for_cmd := true, asyncOut := [] }
    "Hello Module A!AT+OPTION=OK" (by decide) rfl

/-- C8: refutes the claim that no empty unit is ever classified or
delivered: a whitespace-only read is nonempty as raw input, so it is not
skipped, and its stripped form, the empty string, is delivered to the
async sink, or appended to the response buffer when a command waits. -/
theorem c8_counterexample :
    (readerStep { response_lines := [], waiting_for_cmd := false, asyncOut := [] }
        "  ").asyncOut = [""]
    ∧ (readerStep { response_lines := [], waiting_for_cmd := true, asyncOut := [] }
        "  ").response_lines = [""] := ⟨by decide, by decide⟩

/-- C8 (amended): only reads that are empty before stripping are skipped;
every nonempty raw line contributes exactly one unit equal to its stripped
form, which may be the empty string when the line is whitespace only. -/
theorem c8_amended (s : ReaderState) (raw : String) :
    readerStep s "" = s
    ∧ (raw ≠ "" → s.waiting_for_cmd = false →
        (readerStep s raw).asyncOut = s.asyncOut ++ [pyStrip raw]) := by
  constructor
  · simp [readerStep]
  · intro hne hw
    rw [readerStep_async_of_not_waiting s raw hw]
    simp [segmentsOfRaw, hne]

theorem c8_amended_witness :
    (readerStep { response_lines := [], waiting_for_cmd := false, asyncOut := [] }
        " \r\n").asyncOut = [] ++ [pyStrip " \r\n"] :=
  (c8_amended { response_lines := [], waiting_for_cmd := false, asyncOut := [] }
    " \r\n").2 (by decide) rfl

/-- C9: for every command name, parameter list and flag combination the
formatted outbound command equals the prefix, then the command, then "=?"
for a query, or "=" and the decimal-rendered parameters joined by commas
when parameters are given, or nothing; the prefix is "AT+" locally and
"++AT+" when remote is requested. -/
theorem c9_format_command (command : String) (params : List Int)
    (query remote : Bool) :
    _format_command command params query remote
      = formatCommandSpec command params query remote := by
  unfold _format_command formatCommandSpec
  by_cases hq : query
  · simp [hq]
  · by_cases hp : params = []
    · simp [hq, hp, String.append_empty]
    · simp [hq, hp, List.isEmpty_iff, String.append_assoc]

lemma send_message_run_result_some (w : List String) (e l : String)
    (hf : (segmentsOfRaws w).find? (fun x => strContains x e) = some l) :
    (send_message_run w e).result = Except.ok l := by
  simp [send_message_run, hf]

lemma send_message_run_result_none (w : List String) (e : String)
    (hf : (segmentsOfRaws w).find? (fun x => strContains x e) = none) :
    (send_message_run w e).result
      = Except.error "Message sending failed: expected response not received within timeout" := by
  simp [send_message_run, hf]

/-- C4: in a send_message exchange the first observed Segment containing
the success token is the sole returned result; the result is unchanged by
whatever arrives after a match has been observed, so the call does not
wait out the full deadline; the call raises if and only if no observed
Segment contains the token; and on the stream junk1, USER:xSUCCESS, junk2
the returned result is USER:xSUCCESS while junk1 alone yields no result. -/
theorem c4_send_message_first_match (raws : List String) (expect : String) :
    (∀ r, (send_message_run raws expect).result = Except.ok r →
      strContains r expect = true ∧
        ∃ pre post, segmentsOfRaws raws = pre ++ r :: post ∧
          ∀ x ∈ pre, strContains x expect = false)
    ∧ (isErr (send_message_run raws expect).result = true ↔
        ∀ s ∈ segmentsOfRaws raws, strContains s expect = false)
    ∧ (∀ raws2, (∃ s ∈ segmentsOfRaws raws, strContains s expect = true) →
        (send_message_run (raws ++ raws2) expect).result
          = (send_message_run raws expect).result)
    ∧ (send_message_run ["junk1", "USER:xSUCCESS", "junk2"] "SUCCESS").result
        = Except.ok "USER:xSUCCESS"
    ∧ isErr (send_message_run ["junk1"] "SUCCESS").result = true := by
  refine ⟨?_, ?_, ?_, by decide, by decide⟩
  · intro r h
    cases hf : (segmentsOfRaws raws).find? (fun l => strContains l expect) with
    | none => rw [send_message_run_result_none raws expect hf] at h; simp at h
    | some l =>
        rw [send_message_run_result_some raws expect l hf] at h
        cases h
        exact find?_decomp _ _ _ hf
  · cases hf : (segmentsOfRaws raws).find? (fun l => strContains l expect) with
    | none =>
        rw [send_message_run_result_none raws expect hf]
        simp [isErr]
        intro s hs
        have := List.find?_eq_none.mp hf s hs
        exact Bool.of_not_eq_true this
    | some l =>
        rw [send_message_run_result_some raws expect l hf]
        simp [isErr]
        have hp := List.find?_some hf
        exact ⟨l, List.mem_of_find?_eq_some hf, hp⟩
  · intro raws2 hex
    have hsome : ((segmentsOfRaws raws).find? (fun l => strContains l expect)).isSome := by
      rw [List.find?_isSome]
      obtain ⟨s, hs, hp⟩ := hex
      exact ⟨s, hs, hp⟩
    obtain ⟨r, hr⟩ := Option.isSome_iff_exists.mp hsome
    have hr2 : (segmentsOfRaws (raws ++ raws2)).find? (fun l => strContains l expect)
        = some r := by
      rw [segmentsOfRaws_append]
      exact find?_append_left _ _ _ _ hr
    rw [send_message_run_result_some _ expect r hr2,
      send_message_run_result_some raws expect r hr]

theorem c4_witness :
    strContains "USER:xSUCCESS" "SUCCESS" = true ∧
      ∃ pre post, segmentsOfRaws ["junk1", "USER:xSUCCESS", "junk2"]
          = pre ++ "USER:xSUCCESS" :: post ∧
        ∀ x ∈ pre, strContains x "SUCCESS" = false :=
  (c4_send_message_first_match ["junk1", "USER:xSUCCESS", "junk2"] "SUCCESS").1
    "USER:xSUCCESS" (by decide)

/-- C5: refutes the forwarding the claim asserts: in a successful
send_message exchange over junk1 then USER:xSUCCESS, the non-matching
Segment junk1 is never forwarded to the async sink, neither during the
exchange nor afterwards; it is silently retained in the stale buffer. -/
theorem c5_counterexample :
    (send_message_session ["junk1", "USER:xSUCCESS"] [] "SUCCESS").1.result
        = Except.ok "USER:xSUCCESS"
    ∧ (send_message_session ["junk1", "USER:xSUCCESS"] [] "SUCCESS").1.asyncDuring = []
    ∧ (send_message_session ["junk1", "USER:xSUCCESS"] [] "SUCCESS").2.asyncOut = [] := by
  refine ⟨by decide, by decide, by decide⟩

/-- C5 (amended): send_message forwards nothing to the async sink:
Segments observed while the exchange is in progress are retained in the
response buffer and never delivered, whether the exchange succeeds or
times out; only lines read after the call has exited reach the sink, in
arrival order, through the ordinary reader path. -/
theorem c5_amended (windowRaws afterRaws : List String) (expect : String) :
    (send_message_session windowRaws afterRaws expect).1.asyncDuring = []
    ∧ (send_message_session windowRaws afterRaws expect).2.asyncOut
        = segmentsOfRaws afterRaws := by
  constructor
  · exact send_message_run_asyncDuring windowRaws expect
  · show (readerRun _ afterRaws).asyncOut = _
    rw [readerRun_async afterRaws _ rfl]
    simp

lemma atCmd_response_eq (raws : List String) (isq : Bool) (exp : Option String)
    (f : String → Bool) :
    (send_at_command_run raws isq exp f).response
      = String.intercalate "\n" ((segmentsOfRaws raws).filter f) := by
  show String.intercalate "\n" ((segmentsOfRaws raws).partition f).1 = _
  rw [List.partition_eq_filter_filter]

lemma atCmd_result_query (raws : List String) (exp : Option String) (f : String → Bool) :
    (send_at_command_run raws true exp f).result
      = Except.ok ((send_at_command_run raws true exp f).response) := by
  cases exp with
  | none => rfl
  | some e => simp [send_at_command_run]

lemma atCmd_result_set_eq (raws : List String) (e : String) (f : String → Bool) :
    (send_at_command_run raws false (some e) f).result
      = if !(e == "") && !(strContains ((send_at_command_run raws false (some e) f).response) e)
        then Except.error ("Unexpected response for command: "
            ++ (send_at_command_run raws false (some e) f).response)
        else Except.ok ((send_at_command_run raws false (some e) f).response) := by
  simp only [send_at_command_run, Bool.not_false, Bool.true_and]

/-- C2: refutes the claimed classification predicate: the Segment
xSUCCESS contains the token SUCCESS, which the claim says marks it as
belonging to the exchange, and the Segment xAT+Y contains the command
prefix token at a nonzero position, yet the source filter rejects both
and the exchange routes them to the async sink. -/
theorem c2_counterexample :
    strContains "xSUCCESS" "SUCCESS" = true
    ∧ _default_response_filter "xSUCCESS" = false
    ∧ strContains "xAT+Y" "AT+" = true
    ∧ _default_response_filter "xAT+Y" = false
    ∧ (send_at_command_run ["xSUCCESS"] true none _default_response_filter).extra_async
        = ["xSUCCESS"] := by
  refine ⟨by decide, by decide, by decide, by decide, by decide⟩

/-- C2 (amended): under the default filter a Segment of an accumulate
exchange is routed to the async sink if and only if it does not contain
OK, does not contain an equals sign, and does not start with AT+; the
token SUCCESS plays no role and the command prefix counts only at
position 0. -/
theorem c2_amended (raws : List String) (isq : Bool) (exp : Option String) (s : String)
    (hs : s ∈ segmentsOfRaws raws) :
    s ∈ (send_at_command_run raws isq exp _default_response_filter).extra_async
      ↔ (strContains s "OK" = false ∧ strContains s "=" = false
          ∧ strStartsWith s "AT+" = false) := by
  rw [atCmd_extra_async, List.mem_filter]
  simp [hs, _default_response_filter]
  exact and_assoc

theorem c2_amended_witness :
    "xSUCCESS" ∈ (send_at_command_run ["xSUCCESS"] true none
        _default_response_filter).extra_async :=
  (c2_amended ["xSUCCESS"] true none "xSUCCESS" (by decide)).mpr
    ⟨by decide, by decide, by decide⟩

/-- C3: refutes the case-insensitive reading of the Expectation check:
with accumulated text AT+X=ok and Expectation OK, the Expectation is a
case-insensitive substring of the joined text, yet the call raises,
because the source tests containment with the case-sensitive Python
substring operator. -/
theorem c3_counterexample :
    ¬ (isErr (send_at_command_run ["AT+X=ok"] false (some "OK")
          _default_response_filter).result = true
        ↔ containsCI (send_at_command_run ["AT+X=ok"] false (some "OK")
            _default_response_filter).response "OK" = false) := by decide

/-- C3 (amended): an accumulate exchange raises if and only if it is a
set command whose nonempty Expectation is not a case-sensitive substring
of the newline-joined text of the filter-passing Segments; a query always
returns the joined text; and a set command with a nonempty Expectation
and zero qualifying Segments raises, the joined text being empty. -/
theorem c3_amended (raws : List String) (f : String → Bool) (e : String) :
    (∀ exp, (send_at_command_run raws true exp f).result
        = Except.ok ((send_at_command_run raws true exp f).response))
    ∧ (isErr (send_at_command_run raws false (some e) f).result = true
        ↔ (e ≠ "" ∧ strContains ((send_at_command_run raws false (some e) f).response) e
            = false))
    ∧ ((send_at_command_run raws false (some e) f).valid_lines = [] → e ≠ "" →
        isErr (send_at_command_run raws false (some e) f).result = true) := by
  have hiff : isErr (send_at_command_run raws false (some e) f).result = true
      ↔ (e ≠ "" ∧ strContains ((send_at_command_run raws false (some e) f).response) e
          = false) := by
    rw [atCmd_result_set_eq]
    by_cases he : e = ""
    · simp [he, isErr]
    · by_cases hc : strContains ((send_at_command_run raws false (some e) f).response) e
      · simp [he, hc, isErr]
      · simp [he, hc, isErr]
  refine ⟨fun exp => atCmd_result_query raws exp f, hiff, ?_⟩
  intro hv he
  apply hiff.mpr
  refine ⟨he, ?_⟩
  have hresp : (send_at_command_run raws false (some e) f).response = "" := by
    have := atCmd_valid_lines raws false (some e) f
    rw [hv] at this
    rw [atCmd_response_eq, ← this]
    rfl
  rw [hresp]
  exact strContains_empty_left e he

theorem c3_amended_witness :
    isErr (send_at_command_run [] false (some "OK") _default_response_filter).result
      = true :=
  (c3_amended [] _default_response_filter "OK").2.2 (by decide) (by decide)

/-- C6: refutes the immediate-forwarding claim: for the async Segment
noise observed during an accumulate exchange, no async delivery happens
before the deadline window closes, yet noise is delivered afterwards, so
it is not forwarded while the exchange is still open. -/
theorem c6_counterexample :
    asyncDeliversBeforeClose
        (send_at_command_run ["noise"] true none _default_response_filter).events = []
    ∧ asyncDeliversAll
        (send_at_command_run ["noise"] true none _default_response_filter).events
      = ["noise"]
    ∧ ¬ "noise" ∈ asyncDeliversBeforeClose
        (send_at_command_run ["noise"] true none _default_response_filter).events := by
  refine ⟨by decide, by decide, by decide⟩

/-- C6 (amended): during an accumulate exchange no async delivery happens
while the exchange is open; only after the deadline window closes does
the registered target receive, synchronously and in arrival order,
exactly the Segments the filter rejected. -/
theorem c6_amended (raws : List String) (isq : Bool) (exp : Option String)
    (f : String → Bool) :
    asyncDeliversBeforeClose (send_at_command_run raws isq exp f).events = []
    ∧ asyncDeliversAll (send_at_command_run raws isq exp f).events
        = (segmentsOfRaws raws).filter (fun l => !(f l))
    ∧ (send_at_command_run raws isq exp f).extra_async
        = (segmentsOfRaws raws).filter (fun l => !(f l)) := by
  have hev : (send_at_command_run raws isq exp f).events
      = (segmentsOfRaws raws).map Ev.append
        ++ (Ev.windowClosed ::
            (((send_at_command_run raws isq exp f).extra_async).map Ev.asyncDeliver
              ++ [Ev.result (send_at_command_run raws isq exp f).result])) := rfl
  refine ⟨?_, ?_, atCmd_extra_async raws isq exp f⟩
  · rw [hev]
    exact asyncBefore_shape _ _
  · rw [hev, asyncAll_shape, atCmd_extra_async]

/-- C7: at most one exchange is active at an instant: in every
lock-valid interleaving of two concurrent exchange-opening calls, each
running the acquire-transmit-release protocol of send_message or of
_send_at_command, whichever thread acquires the module-wide lock first
releases it before the other thread transmits its outbound payload. -/
theorem c7_mutual_exclusion (c0 c1 : Bool) (f : Fin 6 → Bool)
    (hvalid : lockValidFrom none
        (mergeRun (schedOf f) (pickProtocol c0) (pickProtocol c1)) = true) :
    mutexOK (mergeRun (schedOf f) (pickProtocol c0) (pickProtocol c1)) = true := by
  revert hvalid
  revert c0 c1 f
  decide

theorem c7_witness :
    mutexOK (mergeRun (schedOf (fun i => decide (3 ≤ i.val)))
        (pickProtocol false) (pickProtocol true)) = true :=
  c7_mutual_exclusion false true (fun i => decide (3 ≤ i.val)) (by decide)

/-- C10: both exchange calls clear _waiting_for_cmd on every exit path,
whether they return a result or raise, so a nonempty line read after the
call has completed is routed by the reader to the async path instead of
being accumulated into the stale response buffer. -/
theorem c10_flag_cleared (windowRaws raws2 : List String) (expect : String)
    (isq : Bool) (exp : Option String) (f : String → Bool)
    (s : ReaderState) (raw : String) :
    (send_message_run windowRaws expect).waiting_after = false
    ∧ (send_at_command_run raws2 isq exp f).waiting_after = false
    ∧ (raw ≠ "" →
        (readerStep { s with
            waiting_for_cmd := (send_message_run windowRaws expect).waiting_after }
          raw).asyncOut = s.asyncOut ++ [pyStrip raw]) := by
  refine ⟨send_message_run_waiting windowRaws expect, rfl, ?_⟩
  intro hne
  rw [readerStep_async_of_not_waiting _ raw
    (by rw [send_message_run_waiting])]
  simp [segmentsOfRaw, hne]

theorem c10_witness :
    (readerStep
      { response_lines := ([] : List String)
        waiting_for_cmd := (send_message_run [] "SUCCESS").waiting_after
        asyncOut := ([] : List String) } "PUSH:hello").asyncOut
      = [] ++ [pyStrip "PUSH:hello"] :=
  (c10_flag_cleared [] [] "SUCCESS" false (some "OK") _default_response_filter
    { response_lines := [], waiting_for_cmd := false, asyncOut := [] }
    "PUSH:hello").2.2 (by decide)
